import Mathlib

/-!
Shallow embedding of the DrJones NFC Master firmware, latest revision
(v5.0, second half of `src/firmware.ino`): the non-blocking button
debouncer (`updateButtons`), the confirmation gate (`confirmAction`),
the key-dictionary loader (`loadKeysFromSD`), the block authenticator
(`authenticateBlock`), the full-card dump (`dumpCard`), the
write-file-to-card operation (`writeFileToCard`) and the file-browser
listing (`viewFiles`).

Collaborator layers (PN532 radio, SD storage, display) are modelled as
oracles: the radio's authenticate/read answers are input functions, the
SD card is a list of lines / bytes / directory entries, and display
output is ignored.  Raw pin levels are booleans with `true` = HIGH
(idle, pull-up) and `false` = LOW (pressed).  Times are naturals
(milliseconds, `millis()`).
-/

namespace Firmware

/-! ### Input debouncer (`updateButtons`, firmware.ino lines 1545-1566) -/

/-- Per-button debounce state, mirroring `struct Button` (minus the pin
number, which only selects the raw-input stream). -/
structure Btn where
  lastDebounceTime : Nat
  lastButtonState : Bool
  currentState : Bool
  pressed : Bool
deriving DecidableEq, Repr

/-- One call of the `debounce` lambda inside `updateButtons` for a single
button: `W` is `debounceDelay`, `reading` is `digitalRead(b.PIN)`, `now`
is `millis()`.  The press edge is emitted only when the newly accepted
debounced level is LOW (`false`). -/
def debounce (W : Nat) (b : Btn) (reading : Bool) (now : Nat) : Btn :=
  let ldt := if reading == b.lastButtonState then b.lastDebounceTime else now
  if W < now - ldt then
    if reading == b.currentState then
      { lastDebounceTime := ldt, lastButtonState := reading,
        currentState := b.currentState, pressed := false }
    else
      { lastDebounceTime := ldt, lastButtonState := reading,
        currentState := reading, pressed := reading == false }
  else
    { lastDebounceTime := ldt, lastButtonState := reading,
      currentState := b.currentState, pressed := false }

/-- Repeated polls of one button: the trace lists `(millis(), raw level)`
pairs in order.  Returns the final state and the number of polls whose
step emitted a press edge. -/
def debounceRun (W : Nat) (b : Btn) : List (Nat × Bool) → Btn × Nat
  | [] => (b, 0)
  | (n, r) :: ts =>
    let b' := debounce W b r n
    let rest := debounceRun W b' ts
    (rest.1, (if b'.pressed then 1 else 0) + rest.2)

/-- A stretch of consecutive 1 ms polls all reading the same raw level:
times `t0, t0+1, ..., t0+len-1`. -/
def seg : Nat → Nat → Bool → List (Nat × Bool)
  | _, 0, _ => []
  | t0, len + 1, lvl => (t0, lvl) :: seg (t0 + 1) len lvl

/-- A full test trace, polled every millisecond: HIGH for `a` ms, then a
physical press (LOW) held for `d` ms, then HIGH for `m` ms. -/
def mkTrace (a d m : Nat) : List (Nat × Bool) :=
  seg 0 a true ++ (seg a d false ++ seg (a + d) m true)

/-- Quiescent button at power-up (matches `{PIN, 0, HIGH, HIGH, false}`). -/
def initBtn : Btn :=
  { lastDebounceTime := 0, lastButtonState := true, currentState := true,
    pressed := false }

/-! ### The four buttons and `updateButtons` -/

/-- Raw levels of the four pins at one `updateButtons()` call. -/
structure Tick where
  now : Nat
  rawUp : Bool
  rawDown : Bool
  rawSelect : Bool
  rawBack : Bool

/-- The four global `Button` objects. -/
structure BtnState where
  up : Btn
  down : Btn
  select : Btn
  back : Btn
deriving DecidableEq

/-- `updateButtons()` (v5.0): debounce all four buttons with
`debounceDelay = 50`. -/
def updateButtonsStep (s : BtnState) (t : Tick) : BtnState :=
  { up := debounce 50 s.up t.rawUp t.now
    down := debounce 50 s.down t.rawDown t.now
    select := debounce 50 s.select t.rawSelect t.now
    back := debounce 50 s.back t.rawBack t.now }

/-- The condition of the drain loop in `confirmAction` (and of
`waitForButtonPress`): some one-shot edge flag is set. -/
def anyPressed (s : BtnState) : Bool :=
  s.up.pressed || s.down.pressed || s.select.pressed || s.back.pressed

/-- The same four-button state with every one-shot edge flag cleared. -/
def clearEdges (s : BtnState) : BtnState :=
  { up := { s.up with pressed := false }
    down := { s.down with pressed := false }
    select := { s.select with pressed := false }
    back := { s.back with pressed := false } }

/-- A state in which every button has been released and debounced HIGH
(the edge flags are unconstrained). -/
def settledHigh (s : BtnState) : Bool :=
  (s.up.lastButtonState && s.up.currentState) &&
  (s.down.lastButtonState && s.down.currentState) &&
  (s.select.lastButtonState && s.select.currentState) &&
  (s.back.lastButtonState && s.back.currentState)

/-- A tick on which all four raw pins read HIGH (nothing is pushed). -/
def highTick (n : Nat) : Tick :=
  { now := n, rawUp := true, rawDown := true, rawSelect := true, rawBack := true }

/-- All-HIGH ticks at the given times. -/
def highTicks (times : List Nat) : List Tick :=
  times.map highTick

/-! ### Confirmation gate (`confirmAction`, firmware.ino lines 1148-1171)

`confirmAction` polls `updateButtons()` in a loop; each loop iteration
consumes one tick of raw input.  A finite input trace is supplied; the
result is `none` when the trace is exhausted before the prompt resolves
(the real loop would still be waiting). -/

/-- The `while (true)` loop at the end of `confirmAction`: Select
resolves to `true`; Up, Down or Back resolves to `false`. -/
def confirmWait (s : BtnState) : List Tick → Option Bool
  | [] => none
  | t :: ts =>
    let s' := updateButtonsStep s t
    if s'.select.pressed then some true
    else if s'.up.pressed || s'.down.pressed || s'.back.pressed then some false
    else confirmWait s' ts

/-- The drain loop `while (btnUp.pressed || ...) updateButtons();`
followed by the resolution loop. -/
def confirmDrain (s : BtnState) : List Tick → Option Bool
  | [] => if anyPressed s then none else confirmWait s []
  | t :: ts =>
    if anyPressed s then confirmDrain (updateButtonsStep s t) ts
    else confirmWait s (t :: ts)

/-- `confirmAction(prompt)` (v5.0): one unconditional `updateButtons()`,
the drain loop, then the resolution loop.  The prompt text and the
rendering are irrelevant to the result and are not modelled. -/
def confirmAction (s : BtnState) : List Tick → Option Bool
  | [] => none
  | t :: ts => confirmDrain (updateButtonsStep s t) ts

/-- Concrete states and ticks used to exercise the gate. -/
def pendingLowBtn : Btn :=
  { lastDebounceTime := 0, lastButtonState := false, currentState := true,
    pressed := false }

/-- Entry state with a stale Select edge flag still set (the press that
triggered entry into the gate) and every pin released. -/
def staleEdgeState : BtnState :=
  { up := initBtn, down := initBtn,
    select := { initBtn with pressed := true }, back := initBtn }

/-- Entry state in which the Select pin has just gone LOW (mid-debounce). -/
def selPendingState : BtnState :=
  { up := initBtn, down := initBtn, select := pendingLowBtn, back := initBtn }

/-- Entry state in which the Back pin has just gone LOW (mid-debounce). -/
def backPendingState : BtnState :=
  { up := initBtn, down := initBtn, select := initBtn, back := pendingLowBtn }

/-- Entry state in which the Up pin has just gone LOW (mid-debounce). -/
def upPendingState : BtnState :=
  { up := pendingLowBtn, down := initBtn, select := initBtn, back := initBtn }

/-- Entry state in which the Down pin has just gone LOW (mid-debounce). -/
def downPendingState : BtnState :=
  { up := initBtn, down := pendingLowBtn, select := initBtn, back := initBtn }

/-- Tick with only the Select pin LOW. -/
def selLowTick (n : Nat) : Tick :=
  { now := n, rawUp := true, rawDown := true, rawSelect := false, rawBack := true }

/-- Tick with only the Back pin LOW. -/
def backLowTick (n : Nat) : Tick :=
  { now := n, rawUp := true, rawDown := true, rawSelect := true, rawBack := false }

/-- Tick with only the Up pin LOW. -/
def upLowTick (n : Nat) : Tick :=
  { now := n, rawUp := false, rawDown := true, rawSelect := true, rawBack := true }

/-- Tick with only the Down pin LOW. -/
def downLowTick (n : Nat) : Tick :=
  { now := n, rawUp := true, rawDown := false, rawSelect := true, rawBack := true }

/-! ### Key dictionary (`loadKeysFromSD`, firmware.ino lines 1348-1393)

Lines of `keys.txt` are modelled as lists of characters (Arduino
`String`); the file is the list of its lines, or `none` when
`SD.open("/keys.txt")` fails. -/

/-- A 6-byte MIFARE key, each byte a natural below 256. -/
abbrev AuthKey := List Nat

/-- C `isspace` on the characters that can occur in a text line. -/
def isSpaceC (c : Char) : Bool :=
  c == ' ' || c == '\t' || c == '\n' || c == '\r' ||
  c == Char.ofNat 11 || c == Char.ofNat 12

/-- C `isxdigit`. -/
def isHexDigitC (c : Char) : Bool :=
  (('0' ≤ c) && (c ≤ '9')) || (('a' ≤ c) && (c ≤ 'f')) ||
  (('A' ≤ c) && (c ≤ 'F'))

/-- Numeric value of a hex digit. -/
def hexVal (c : Char) : Nat :=
  if ('0' ≤ c) && (c ≤ '9') then c.toNat - '0'.toNat
  else if ('a' ≤ c) && (c ≤ 'f') then c.toNat - 'a'.toNat + 10
  else c.toNat - 'A'.toNat + 10

/-- Consume a maximal run of hex digits: returns how many digits were
consumed, their value, and the rest of the string. -/
def takeHexAux : List Char → Nat → Nat → Nat × Nat × List Char
  | [], n, acc => (n, acc, [])
  | c :: cs, n, acc =>
    if isHexDigitC c then takeHexAux cs (n + 1) (acc * 16 + hexVal c)
    else (n, acc, c :: cs)

/-- `strtol(·, ·, 16)` after the optional sign: handles the optional
`0x`/`0X` prefix (when the prefix is not followed by a hex digit, only
the leading `0` is consumed).  `none` means no conversion was performed,
in which case `endPtr` stays at the start of the string. -/
def strtol16AfterSign (s : List Char) : Option (Nat × List Char) :=
  match s with
  | '0' :: c :: r =>
    if c == 'x' || c == 'X' then
      match r with
      | d :: _ =>
        if isHexDigitC d then
          let pr := takeHexAux r 0 0
          some (pr.2.1, pr.2.2)
        else some (0, c :: r)
      | [] => some (0, c :: r)
    else
      let pr := takeHexAux ('0' :: c :: r) 0 0
      some (pr.2.1, pr.2.2)
  | _ =>
    let pr := takeHexAux s 0 0
    if pr.1 == 0 then none else some (pr.2.1, pr.2.2)

/-- C `strtol(tok, &endPtr, 16)`: skip whitespace, optional sign, then
hex digits.  Returns the (unbounded) value and the suffix starting at
`endPtr`.  Unbounded arithmetic gives the same accept/reject verdict as
the clamped C `long`, because every check in the firmware compares the
result against 0 and 255. -/
def strtol16 (s : List Char) : Int × List Char :=
  let s1 := s.dropWhile isSpaceC
  let sgn : Int × List Char :=
    match s1 with
    | '-' :: r => (-1, r)
    | '+' :: r => (1, r)
    | r => (1, r)
  match strtol16AfterSign sgn.2 with
  | none => (0, s)
  | some (v, rest) => (sgn.1 * (v : Int), rest)

/-- `strtok(buf, " ")` iterated to exhaustion: the maximal runs of
non-space characters, in order. -/
def tokenizeSpAux : List Char → List Char → List (List Char)
  | [], cur => if cur.isEmpty then [] else [cur.reverse]
  | c :: cs, cur =>
    if c == ' ' then
      if cur.isEmpty then tokenizeSpAux cs []
      else cur.reverse :: tokenizeSpAux cs []
    else tokenizeSpAux cs (c :: cur)

/-- All space-separated tokens of a line. -/
def tokenizeSp (s : List Char) : List (List Char) :=
  tokenizeSpAux s []

/-- Arduino `String::trim()`: strip whitespace from both ends. -/
def trimC (s : List Char) : List Char :=
  ((s.dropWhile isSpaceC).reverse.dropWhile isSpaceC).reverse

/-- Outcome of one iteration of the `loadKeysFromSD` line loop. -/
inductive LineResult where
  | empty : LineResult
  | malformed : LineResult
  | key : List Nat → LineResult
deriving DecidableEq, Repr

/-- The inner token loop of `loadKeysFromSD`:
`while (ptr != NULL && byteIndex < 6) { ... }`.  Returns the final
`byteIndex`, the final `lineOk`, and the bytes stored so far. -/
def parseToksAux : List (List Char) → Nat → List Nat → Nat × Bool × List Nat
  | [], i, acc => (i, true, acc.reverse)
  | tok :: rest, i, acc =>
    if 6 ≤ i then (i, true, acc.reverse)
    else
      let v := (strtol16 tok).1
      let rem := (strtol16 tok).2
      if rem ≠ [] ∨ v < 0 ∨ 255 < v then (i, false, acc.reverse)
      else parseToksAux rest (i + 1) (v.toNat :: acc)

/-- One iteration of the line loop of `loadKeysFromSD` (v5.0): trim, skip
empty lines, copy into the 40-byte `lineBuffer` (keeping at most 39
characters), tokenize on spaces, and run the token loop.  The line
yields a key iff `byteIndex == 6 && lineOk`. -/
def parseKeyLine (line : List Char) : LineResult :=
  let t := trimC line
  if t.isEmpty then .empty
  else
    let toks := tokenizeSp (t.take 39)
    let r := parseToksAux toks 0 []
    if r.1 = 6 ∧ r.2.1 = true then .key r.2.2 else .malformed

/-- The outer loop of `loadKeysFromSD`: processes lines while fewer than
50 keys have been stored; returns the keys in file order and the number
of lines reported as malformed. -/
def loadKeysAux : List (List Char) → Nat → List AuthKey → Nat →
    List AuthKey × Nat
  | [], _, acc, m => (acc.reverse, m)
  | l :: ls, k, acc, m =>
    if 50 ≤ k then (acc.reverse, m)
    else
      match parseKeyLine l with
      | .empty => loadKeysAux ls k acc m
      | .malformed => loadKeysAux ls k acc (m + 1)
      | .key key => loadKeysAux ls (k + 1) (key :: acc) m

/-- Keys and malformed-line count obtained from the whole key file. -/
def loadKeysList (lines : List (List Char)) : List AuthKey × Nat :=
  loadKeysAux lines 0 [] 0

/-- The built-in `defaultKeys` array (v5.0, firmware.ino lines 888-892). -/
def defaultKeys : List AuthKey :=
  [[0xFF, 0xFF, 0xFF, 0xFF, 0xFF, 0xFF],
   [0xA0, 0xA1, 0xA2, 0xA3, 0xA4, 0xA5],
   [0xB0, 0xB1, 0xB2, 0xB3, 0xB4, 0xB5]]

/-- `loadKeysFromSD()` (v5.0): `none` models `SD.open` failing (file
absent); otherwise the file's lines are parsed and, when no valid key
was found, the dictionary falls back to `defaultKeys`. -/
def loadKeysFromSD (source : Option (List (List Char))) : List AuthKey :=
  match source with
  | some lines =>
    let ks := (loadKeysList lines).1
    if ks.length = 0 then defaultKeys else ks
  | none => defaultKeys

/-- Spec-side predicate: the token parses as a valid byte (0-255) with no
trailing garbage (this is the wording of the specification, used to
state the corrected claim C5 against the code above). -/
def tokByteOk (t : List Char) : Bool :=
  (strtol16 t).2.isEmpty && decide (0 ≤ (strtol16 t).1) &&
  decide ((strtol16 t).1 ≤ 255)

/-- Spec-side byte value of a token. -/
def tokByteVal (t : List Char) : Nat :=
  (strtol16 t).1.toNat

/-! ### Block authenticator (`authenticateBlock`, firmware.ino
lines 1395-1401)

The radio call `nfc.mifareclassic_AuthenticateBlock(uid, uidLen, block,
slot, key)` is an oracle `A : Nat → Nat → AuthKey → Bool` taking the
block, the key slot (0 = key A, 1 = key B) and the key; the card
identifier is fixed inside the oracle. -/

/-- `authenticateBlock` (v5.0): keys in dictionary order, slot 0 then
slot 1 per key, short-circuiting on the first success. -/
def authenticateBlock (A : Nat → Nat → AuthKey → Bool) (block : Nat) :
    List AuthKey → Bool
  | [] => false
  | k :: ks =>
    if A block 0 k then true
    else if A block 1 k then true
    else authenticateBlock A block ks

/-- The same loop, instrumented with the list of (key, slot) pairs that
are attempted, in order, the successful one (if any) last. -/
def authAttempts (A : Nat → Nat → AuthKey → Bool) (block : Nat) :
    List AuthKey → List (AuthKey × Nat) × Bool
  | [] => ([], false)
  | k :: ks =>
    if A block 0 k then ([(k, 0)], true)
    else if A block 1 k then ([(k, 0), (k, 1)], true)
    else
      let r := authAttempts A block ks
      ((k, 0) :: (k, 1) :: r.1, r.2)

/-- The full trial order the loop ranges over: each key with slot 0 then
slot 1, keys in dictionary order. -/
def keySlotPairs : List AuthKey → List (AuthKey × Nat)
  | [] => []
  | k :: ks => (k, 0) :: (k, 1) :: keySlotPairs ks

/-- Spec-side: the prefix of a list up to and including the first
element satisfying `p` (the whole list when none does). -/
def takeThruFirst (p : α → Bool) : List α → List α
  | [] => []
  | a :: as => if p a then [a] else a :: takeThruFirst p as

/-- Dictionary `[K1, K2]` of the specification's worked example. -/
def exampleK1 : AuthKey := List.replicate 6 1

/-- Second key of the worked example. -/
def exampleK2 : AuthKey := List.replicate 6 2

/-- Oracle of the worked example: only `K2` with slot B (1) succeeds. -/
def exampleOracle : Nat → Nat → AuthKey → Bool :=
  fun _ slot k => k == exampleK2 && slot == 1

/-! ### Card dump (`dumpCard`, firmware.ino lines 1196-1262)

The PN532 `mifareclassic_ReadDataBlock` call fills a 16-byte buffer on
success; its answer is an oracle returning an optional 16-byte record.
The SD file is modelled as the list of 16-byte records written to it,
in order. -/

/-- A 16-byte block record. -/
abbrev Bytes16 := { l : List Nat // l.length = 16 }

/-- The `uint8_t emptyData[16] = {0}` placeholder. -/
def zeros16 : Bytes16 := ⟨List.replicate 16 0, by simp⟩

/-- Everything `dumpCard` observes from its collaborators. -/
structure DumpEnv where
  /-- `readPassiveTargetID` result: the UID bytes, or `none` on timeout. -/
  uid : Option (List Nat)
  /-- `SD.exists(filename)` for the derived dump filename. -/
  fileNameExists : Bool
  /-- The operator's answer to the `"Overwrite file?"` confirmation. -/
  confirmOverwrite : Bool
  /-- `SD.open(filename, FILE_WRITE)` succeeding. -/
  openOk : Bool
  /-- Radio authenticate oracle: block, key slot, key. -/
  auth : Nat → Nat → AuthKey → Bool
  /-- Radio read oracle: `some` = `mifareclassic_ReadDataBlock` succeeded
  and filled the buffer with these 16 bytes. -/
  readBlock : Nat → Option Bytes16
  /-- The key dictionary loaded at startup. -/
  keys : List AuthKey

/-- `authenticateBlock(uid, uidLength, block)` inside the dump, against
the environment's radio and dictionary. -/
def authBlockEnv (env : DumpEnv) (block : Nat) : Bool :=
  authenticateBlock env.auth block env.keys

/-- The 16 bytes `dumpCard` appends for one block: the bytes read when
`mifareclassic_ReadDataBlock` succeeds, the zero placeholder otherwise. -/
def dumpRecord (env : DumpEnv) (block : Nat) : Bytes16 :=
  match env.readBlock block with
  | some d => d
  | none => zeros16

/-- The `for (int block = 0; block < 64; block++)` loop: returns the
records written, in order, and the final `anyBlockAuthenticated` flag.
Each iteration attempts authentication (feeding the flag) and then
attempts the read, whose outcome alone selects the bytes written. -/
def dumpLoop (env : DumpEnv) : List Nat → Bool → List Bytes16 × Bool
  | [], anyAuth => ([], anyAuth)
  | b :: bs, anyAuth =>
    let a := authBlockEnv env b
    let rec' := dumpRecord env b
    let rest := dumpLoop env bs (anyAuth || a)
    (rec' :: rest.1, rest.2)

/-- The status message `dumpCard` ends with. -/
inductive DumpOutcome where
  | noCard : DumpOutcome
  | cancelled : DumpOutcome
  | sdError : DumpOutcome
  | complete : DumpOutcome
  | authFailed : DumpOutcome
deriving DecidableEq, Repr

/-- Observable result of one `dumpCard()` invocation. -/
structure DumpResult where
  outcome : DumpOutcome
  /-- The records written to the dump file (`none` when no file was
  created and written). -/
  fileRecords : Option (List Bytes16)
  /-- Whether `SD.remove(filename)` ran (overwrite of an existing dump). -/
  removedExisting : Bool
  /-- Number of `confirmAction` invocations. -/
  confirmCalls : Nat

/-- The tail of `dumpCard` after the overwrite check: create the file,
run the 64-block loop, close, and report. -/
def dumpProceed (env : DumpEnv) (removed : Bool) (confirms : Nat) :
    DumpResult :=
  if env.openOk then
    let r := dumpLoop env (List.range 64) false
    { outcome := if r.2 then .complete else .authFailed,
      fileRecords := some r.1, removedExisting := removed,
      confirmCalls := confirms }
  else
    { outcome := .sdError, fileRecords := none, removedExisting := removed,
      confirmCalls := confirms }

/-- `dumpCard()` (v5.0): detect, derive the filename, gate an overwrite
behind `confirmAction`, then dump all 64 blocks. -/
def dumpCard (env : DumpEnv) : DumpResult :=
  match env.uid with
  | none =>
    { outcome := .noCard, fileRecords := none, removedExisting := false,
      confirmCalls := 0 }
  | some _ =>
    if env.fileNameExists then
      if env.confirmOverwrite then dumpProceed env true 1
      else
        { outcome := .cancelled, fileRecords := none,
          removedExisting := false, confirmCalls := 1 }
    else dumpProceed env false 0

/-- The dump file as a flat byte list. -/
def dumpFlat (env : DumpEnv) : List Nat :=
  (((dumpCard env).fileRecords.getD []).map Subtype.val).flatten

/-- Dump environment in which no key authenticates any block but every
read succeeds and returns sixteen 1-bytes. -/
def dumpEnvNoAuth : DumpEnv :=
  { uid := some [1, 2, 3, 4], fileNameExists := false,
    confirmOverwrite := false, openOk := true,
    auth := fun _ _ _ => false,
    readBlock := fun _ => some ⟨List.replicate 16 1, by simp⟩,
    keys := defaultKeys }

/-- Dump environment in which everything succeeds. -/
def dumpEnvOk : DumpEnv :=
  { uid := some [4, 7, 11, 32], fileNameExists := false,
    confirmOverwrite := false, openOk := true,
    auth := fun _ _ _ => true,
    readBlock := fun _ => some ⟨List.replicate 16 5, by simp⟩,
    keys := defaultKeys }

/-! ### Write a file to the card (`writeFileToCard`, firmware.ino
lines 1503-1539) -/

/-- Everything `writeFileToCard` observes from its collaborators. -/
structure WriteEnv where
  /-- `SD.open(filename)` succeeding. -/
  fileOpenOk : Bool
  /-- The bytes of the chosen file (its size is their count). -/
  fileBytes : List Nat
  /-- `readPassiveTargetID` result. -/
  uid : Option (List Nat)
  /-- Radio authenticate oracle: block, key slot, key. -/
  auth : Nat → Nat → AuthKey → Bool
  /-- The key dictionary loaded at startup. -/
  keys : List AuthKey

/-- Observable effects of one `writeFileToCard` invocation. -/
structure CardWriteResult where
  /-- The `mifareclassic_WriteDataBlock(block, data)` commands issued. -/
  cardWrites : List (Nat × List Nat)
  /-- Number of `confirmAction` invocations. -/
  confirmCalls : Nat
deriving DecidableEq, Repr

/-- `writeFileToCard(filename)` (v5.0): open the file, reject files
shorter than 16 bytes, read the first 16 bytes, detect the card,
authenticate block 4 and write.  The v5.0 revision contains no
`confirmAction` call on this path. -/
def writeFileToCard (env : WriteEnv) : CardWriteResult :=
  if !env.fileOpenOk then { cardWrites := [], confirmCalls := 0 }
  else if env.fileBytes.length < 16 then { cardWrites := [], confirmCalls := 0 }
  else
    let dataToWrite := env.fileBytes.take 16
    match env.uid with
    | none => { cardWrites := [], confirmCalls := 0 }
    | some _ =>
      if authenticateBlock env.auth 4 env.keys then
        { cardWrites := [(4, dataToWrite)], confirmCalls := 0 }
      else { cardWrites := [], confirmCalls := 0 }

/-- Write environment in which everything succeeds: the chosen file
holds 16 bytes, a card is present and the first key authenticates. -/
def writeEnvOk : WriteEnv :=
  { fileOpenOk := true, fileBytes := List.replicate 16 7,
    uid := some [1, 2, 3, 4], auth := fun _ _ _ => true,
    keys := defaultKeys }

/-! ### File browser listing (`viewFiles`, firmware.ino lines 1404-1487)

The storage root is a list of directory entries; `openNextFile`
enumerates them in order. -/

/-- One directory entry of the SD root. -/
structure FileEntry where
  name : List Char
  isDirectory : Bool
deriving DecidableEq, Repr

/-- The counting pass `while(root.openNextFile()){ totalFiles++; }` of
`viewFiles` (v5.0): every entry is counted, directories included. -/
def countEntries : List FileEntry → Nat
  | [] => 0
  | _ :: es => countEntries es + 1

/-- The listing pass after `rewindDirectory()`: `fileList[i]` is the
name of the i-th entry, for `i < totalFiles`. -/
def viewFilesList (entries : List FileEntry) : List (List Char) :=
  (List.range (countEntries entries)).map
    (fun i => ((entries[i]?).map FileEntry.name).getD [])

/-- `String selectedFile = "/" + fileList[currentFileIndex];` — the
target handed to `deleteFile` or `writeFileToCard` when Select is
pressed on index `i`. -/
def fileSelectTarget (entries : List FileEntry) (i : Nat) :
    Option (List Char) :=
  ((viewFilesList entries)[i]?).map (fun n => '/' :: n)

/-- A sample root holding one plain file and one subdirectory. -/
def exampleEntries : List FileEntry :=
  [{ name := 'D' :: 'U' :: 'M' :: 'P' :: '.' :: 'B' :: 'I' :: 'N' :: [],
     isDirectory := false },
   { name := 'L' :: 'O' :: 'G' :: 'S' :: [], isDirectory := true }]

/-- A key-file line carrying seven valid hex-byte tokens. -/
def sevenTokLine : List Char :=
  ['F', 'F', ' ', 'F', 'F', ' ', 'F', 'F', ' ', 'F', 'F', ' ', 'F', 'F',
   ' ', 'F', 'F', ' ', 'F', 'F']

/-- A key-file line with a non-hex token. -/
def badKeyLine : List Char :=
  ['x', 'x']

/-! ## Theorems -/

/-- Claim C4.  The authenticator tries the dictionary in insertion
order, slot A (0) before slot B (1) per key, short-circuits on the first
success and fails only after exhausting every key with both slots; with
dictionary `[K1, K2]` and only K2/slot B valid, exactly the attempts
K1/A, K1/B, K2/A precede the succeeding K2/B attempt.  The card
identifier and block are fixed inside the oracle `A`, so the statement
quantifies over every identifier and block. -/
theorem c4_authenticator_trial_order :
    (∀ (A : Nat → Nat → AuthKey → Bool) (block : Nat) (ks : List AuthKey),
      authAttempts A block ks =
        (takeThruFirst (fun p => A block p.2 p.1) (keySlotPairs ks),
         (keySlotPairs ks).any (fun p => A block p.2 p.1)) ∧
      authenticateBlock A block ks = (authAttempts A block ks).2)
    ∧ authAttempts exampleOracle 0 [exampleK1, exampleK2] =
        ([(exampleK1, 0), (exampleK1, 1), (exampleK2, 0), (exampleK2, 1)],
         true) := by
  constructor
  · intro A block ks
    induction ks with
    | nil =>
      simp [authAttempts, keySlotPairs, takeThruFirst, authenticateBlock]
    | cons k ks ih =>
      obtain ⟨ih1, ih2⟩ := ih
      cases h0 : A block 0 k with
      | true =>
        simp [authAttempts, keySlotPairs, takeThruFirst, authenticateBlock,
          h0]
      | false =>
        cases h1 : A block 1 k with
        | true =>
          simp [authAttempts, keySlotPairs, takeThruFirst,
            authenticateBlock, h0, h1]
        | false =>
          simp [authAttempts, keySlotPairs, takeThruFirst,
            authenticateBlock, h0, h1, ih1, ih2]
  · decide

/-- Helper: the counting pass counts every entry. -/
theorem countEntries_eq_length (es : List FileEntry) :
    countEntries es = es.length := by
  induction es with
  | nil => rfl
  | cons e es ih => simp [countEntries, ih]

/-- Claim C10.  The v5.0 file browser counts and lists every root
directory entry — subdirectories included, since the `isDirectory`
field is never consulted — and a selected entry (directory or not)
becomes the `"/" + name` target of the delete / write-to-card action. -/
theorem c10_browser_lists_every_entry (entries : List FileEntry) (i : Nat)
    (h : i < entries.length) :
    (viewFilesList entries).length = entries.length ∧
    (viewFilesList entries)[i]? = some (entries.get ⟨i, h⟩).name ∧
    fileSelectTarget entries i = some ('/' :: (entries.get ⟨i, h⟩).name) := by
  have hlen : (viewFilesList entries).length = entries.length := by
    simp [viewFilesList, countEntries_eq_length]
  have hget : (viewFilesList entries)[i]? = some (entries.get ⟨i, h⟩).name := by
    simp [viewFilesList, countEntries_eq_length, List.getElem?_map,
      List.getElem?_range, h, List.getElem?_eq_getElem]
  exact ⟨hlen, hget, by simp [fileSelectTarget, hget]⟩

/-- Witness for C10: on a root holding a plain file and the
subdirectory `LOGS`, the listing has both entries and selecting index 1
targets `/LOGS`. -/
theorem c10_browser_witness :
    (viewFilesList exampleEntries).length = 2 ∧
    fileSelectTarget exampleEntries 1 =
      some ('/' :: 'L' :: 'O' :: 'G' :: 'S' :: []) := by
  have h := c10_browser_lists_every_entry exampleEntries 1 (by decide)
  exact ⟨h.1, h.2.2⟩

/-- Claim C3.  In the v5.0 revision `writeFileToCard` never invokes the
confirmation gate, yet in an environment where the file holds 16 bytes,
a card is detected and a key authenticates block 4 it issues a
destructive block write — so a destructive effect is reachable with the
Confirmation Gate never invoked, contradicting the claim (and the
repository README's "all destructive actions require user
confirmation"). -/
theorem c3_write_file_bypasses_gate :
    (∀ env : WriteEnv, (writeFileToCard env).confirmCalls = 0) ∧
    (writeFileToCard writeEnvOk).cardWrites = [(4, List.replicate 16 7)] := by
  constructor
  · intro env
    unfold writeFileToCard
    split
    · rfl
    · split
      · rfl
      · split
        · rfl
        · split
          · rfl
          · rfl
  · decide

/-- Claim C6.  After startup the dictionary is never empty: an absent
key file, or one yielding zero valid keys, seeds the fixed built-in
default set (exactly 3 keys, the all-0xFF key among them), and the
embedding's key list is fixed after `loadKeysFromSD`, so it stays
non-empty. -/
theorem c6_dictionary_never_empty (src : Option (List (List Char)))
    (lines : List (List Char)) (h : (loadKeysList lines).1 = []) :
    loadKeysFromSD src ≠ [] ∧
    loadKeysFromSD none = defaultKeys ∧
    loadKeysFromSD (some lines) = defaultKeys ∧
    3 ≤ defaultKeys.length ∧
    List.replicate 6 255 ∈ defaultKeys := by
  refine ⟨?_, rfl, ?_, by decide, by decide⟩
  · cases src with
    | none => decide
    | some ls =>
      show (if (loadKeysList ls).1.length = 0 then defaultKeys
        else (loadKeysList ls).1) ≠ []
      by_cases hl : (loadKeysList ls).1.length = 0
      · rw [if_pos hl]
        decide
      · rw [if_neg hl]
        intro hnil
        exact hl (by simp [hnil])
  · show (if (loadKeysList lines).1.length = 0 then defaultKeys
      else (loadKeysList lines).1) = defaultKeys
    simp [h]

/-- Witness for C6 at the empty key file. -/
theorem c6_dictionary_witness :
    loadKeysFromSD (some []) ≠ [] ∧
    loadKeysFromSD none = defaultKeys ∧
    loadKeysFromSD (some []) = defaultKeys ∧
    3 ≤ defaultKeys.length ∧
    List.replicate 6 255 ∈ defaultKeys :=
  c6_dictionary_never_empty (some []) [] rfl

/-- Helper: the dump loop writes one read-selected record per block. -/
theorem dumpLoop_fst (env : DumpEnv) (bs : List Nat) (a : Bool) :
    (dumpLoop env bs a).1 = bs.map (dumpRecord env) := by
  induction bs generalizing a with
  | nil => rfl
  | cons b bs ih => simp [dumpLoop, ih]

/-- Helper: the final `anyBlockAuthenticated` flag. -/
theorem dumpLoop_snd (env : DumpEnv) (bs : List Nat) (a : Bool) :
    (dumpLoop env bs a).2 = (a || bs.any (authBlockEnv env)) := by
  induction bs generalizing a with
  | nil => simp [dumpLoop]
  | cons b bs ih => simp [dumpLoop, ih, Bool.or_assoc]

/-- Helper: whenever `dumpProceed` wrote a file, the records are the 64
read-selected blocks and the outcome is decided by the
any-block-authenticated flag. -/
theorem dumpProceed_spec (env : DumpEnv) (removed : Bool) (confirms : Nat)
    (recs : List Bytes16)
    (h : (dumpProceed env removed confirms).fileRecords = some recs) :
    recs = (List.range 64).map (dumpRecord env) ∧
    (dumpProceed env removed confirms).outcome =
      (if (List.range 64).any (authBlockEnv env) then DumpOutcome.complete
       else DumpOutcome.authFailed) := by
  unfold dumpProceed at h ⊢
  by_cases ho : env.openOk = true
  · rw [if_pos ho] at h ⊢
    dsimp only at h ⊢
    constructor
    · rw [← Option.some.inj h, dumpLoop_fst]
    · simp only [dumpLoop_snd, Bool.false_or]
  · rw [if_neg ho] at h
    simp at h

/-- Helper: the same, lifted through the branches of `dumpCard`. -/
theorem dumpCard_run_spec (env : DumpEnv) (recs : List Bytes16)
    (h : (dumpCard env).fileRecords = some recs) :
    recs = (List.range 64).map (dumpRecord env) ∧
    (dumpCard env).outcome =
      (if (List.range 64).any (authBlockEnv env) then DumpOutcome.complete
       else DumpOutcome.authFailed) := by
  unfold dumpCard at h ⊢
  cases hu : env.uid with
  | none => rw [hu] at h; simp at h
  | some u =>
    rw [hu] at h
    dsimp only at h ⊢
    by_cases hex : env.fileNameExists = true
    · rw [if_pos hex] at h ⊢
      by_cases hc : env.confirmOverwrite = true
      · rw [if_pos hc] at h ⊢
        exact dumpProceed_spec env true 1 recs h
      · rw [if_neg hc] at h
        simp at h
    · rw [if_neg hex] at h ⊢
      exact dumpProceed_spec env false 0 recs h

/-- Claim C1 (amended).  Whenever a dump creates its file, exactly 1024
bytes are written: one 16-byte record per block 0..63 in ascending
order, the record being the 16 bytes the read returned when
`mifareclassic_ReadDataBlock` succeeded and 16 zero placeholder bytes
when it failed — the read outcome, not the authentication outcome,
selects the record. -/
theorem c1_dump_exactly_1024_read_selected (env : DumpEnv)
    (recs : List Bytes16) (h : (dumpCard env).fileRecords = some recs) :
    recs.length = 64 ∧
    (∀ b, b < 64 → recs[b]? = some (dumpRecord env b)) ∧
    ((recs.map Subtype.val).flatten).length = 1024 := by
  obtain ⟨hrecs, -⟩ := dumpCard_run_spec env recs h
  subst hrecs
  refine ⟨by simp, ?_, ?_⟩
  · intro b hb
    simp [List.getElem?_map, List.getElem?_range, hb,
      List.getElem?_eq_getElem]
  · rw [List.length_flatten]
    have hall : ∀ x ∈ (((List.range 64).map (dumpRecord env)).map
        Subtype.val).map List.length, x = 16 := by
      intro x hx
      simp only [List.mem_map, List.mem_range] at hx
      obtain ⟨l, ⟨r, ⟨b, hb, hrb⟩, hlr⟩, hx⟩ := hx
      subst hx
      subst hlr
      subst hrb
      exact (dumpRecord env b).2
    rw [List.sum_eq_card_nsmul _ 16 hall]
    simp

set_option maxRecDepth 20000 in
/-- Counterexample to C1 as stated: in `dumpEnvNoAuth` no block
authenticates, yet every record is the sixteen 1-bytes the (still
succeeding) read returned, not the 16 zero bytes the claim requires for
an unauthenticated block. -/
theorem c1_dump_counterexample :
    authBlockEnv dumpEnvNoAuth 0 = false ∧
    (dumpFlat dumpEnvNoAuth).take 16 = List.replicate 16 1 ∧
    List.replicate 16 (1 : Nat) ≠ List.replicate 16 0 ∧
    (dumpFlat dumpEnvNoAuth).length = 1024 := by decide

/-- Witness for C1 at `dumpEnvNoAuth`. -/
theorem c1_dump_witness :
    ((dumpCard dumpEnvNoAuth).fileRecords.getD []).length = 64 ∧
    ((dumpCard dumpEnvNoAuth).fileRecords.getD [])[0]? =
      some (dumpRecord dumpEnvNoAuth 0) ∧
    (((((dumpCard dumpEnvNoAuth).fileRecords.getD []).map
      Subtype.val).flatten).length = 1024) := by
  have h := c1_dump_exactly_1024_read_selected dumpEnvNoAuth
    ((dumpCard dumpEnvNoAuth).fileRecords.getD []) (by rfl)
  exact ⟨h.1, h.2.1 0 (by decide), h.2.2⟩

set_option maxRecDepth 20000 in
/-- Counterexample to C2 as stated: in `dumpEnvNoAuth` every one of the
64 blocks fails authentication and the authentication-failure outcome
is reported, yet the 1024-byte file written and closed is NOT
placeholder-filled — its records are the sixteen 1-bytes each (still
succeeding) read returned, not zero bytes. -/
theorem c2_dump_counterexample :
    (List.range 64).any (authBlockEnv dumpEnvNoAuth) = false ∧
    (dumpCard dumpEnvNoAuth).outcome = DumpOutcome.authFailed ∧
    (dumpFlat dumpEnvNoAuth).length = 1024 ∧
    (dumpFlat dumpEnvNoAuth).take 16 = List.replicate 16 1 ∧
    List.replicate 16 (1 : Nat) ≠ List.replicate 16 0 := by decide

/-- Claim C2 (amended).  A completed dump (file created and all 64
blocks processed) reports success iff at least one block authenticated;
when every block's authentication fails, a 1024-byte file is still
written and closed — each record selected by the read outcome (the
bytes read on read success, 16 zero placeholder bytes on read
failure) — but the authentication-failure outcome is reported instead
of success. -/
theorem c2_dump_amended_report_policy (env : DumpEnv) (recs : List Bytes16)
    (h : (dumpCard env).fileRecords = some recs) :
    ((dumpCard env).outcome = DumpOutcome.complete ↔
      (List.range 64).any (authBlockEnv env) = true) ∧
    ((dumpCard env).outcome = DumpOutcome.complete ∨
      (dumpCard env).outcome = DumpOutcome.authFailed) ∧
    recs.length = 64 ∧
    (∀ b, b < 64 → recs[b]? = some (dumpRecord env b)) := by
  obtain ⟨hrecs, hout⟩ := dumpCard_run_spec env recs h
  refine ⟨?_, ?_, by rw [hrecs]; simp, ?_⟩
  · rw [hout]
    cases ha : (List.range 64).any (authBlockEnv env) <;> simp [ha]
  · rw [hout]
    cases ha : (List.range 64).any (authBlockEnv env) <;> simp [ha]
  · intro b hb
    rw [hrecs]
    simp [List.getElem?_map, List.getElem?_range, hb,
      List.getElem?_eq_getElem]

/-- Witness for C2 (amended) at `dumpEnvOk`. -/
theorem c2_dump_amended_witness :
    ((dumpCard dumpEnvOk).outcome = DumpOutcome.complete ↔
      (List.range 64).any (authBlockEnv dumpEnvOk) = true) ∧
    ((dumpCard dumpEnvOk).outcome = DumpOutcome.complete ∨
      (dumpCard dumpEnvOk).outcome = DumpOutcome.authFailed) ∧
    ((dumpCard dumpEnvOk).fileRecords.getD []).length = 64 ∧
    ((dumpCard dumpEnvOk).fileRecords.getD [])[0]? =
      some (dumpRecord dumpEnvOk 0) := by
  have h := c2_dump_amended_report_policy dumpEnvOk
    ((dumpCard dumpEnvOk).fileRecords.getD []) (by rfl)
  exact ⟨h.1, h.2.1, h.2.2.1, h.2.2.2 0 (by decide)⟩

/-- Helper: the debounce step never reads the incoming edge flag. -/
theorem debounce_ignores_pressed (W : Nat) (b : Btn) (p reading : Bool)
    (n : Nat) :
    debounce W { b with pressed := p } reading n = debounce W b reading n := rfl

/-- Helper: clearing the four edge flags does not change the next
`updateButtons()` result. -/
theorem updateButtonsStep_clearEdges (s : BtnState) (t : Tick) :
    updateButtonsStep (clearEdges s) t = updateButtonsStep s t := by
  simp [updateButtonsStep, clearEdges, debounce_ignores_pressed]

/-- Helper: a settled HIGH button polled HIGH stays settled and emits no
edge. -/
theorem debounce_high_of_settled (b : Btn) (n : Nat)
    (h1 : b.lastButtonState = true) (h2 : b.currentState = true) :
    debounce 50 b true n =
      { lastDebounceTime := b.lastDebounceTime, lastButtonState := true,
        currentState := true, pressed := false } := by
  simp [debounce, h1, h2]

/-- Helper: an all-HIGH tick on a settled state emits no edge and keeps
the state settled. -/
theorem highTick_keeps_settled (s : BtnState) (n : Nat)
    (h : settledHigh s = true) :
    anyPressed (updateButtonsStep s (highTick n)) = false ∧
    settledHigh (updateButtonsStep s (highTick n)) = true := by
  simp only [settledHigh, Bool.and_eq_true] at h
  obtain ⟨⟨⟨⟨h1, h2⟩, h3, h4⟩, h5, h6⟩, h7, h8⟩ := h
  constructor <;>
    simp [updateButtonsStep, highTick, anyPressed, settledHigh,
      debounce_high_of_settled _ _ h1 h2, debounce_high_of_settled _ _ h3 h4,
      debounce_high_of_settled _ _ h5 h6, debounce_high_of_settled _ _ h7 h8]

/-- Helper: when no edge flag is set, the drain loop falls through to
the resolution loop at once. -/
theorem confirmDrain_of_no_edge (s : BtnState) (ts : List Tick)
    (h : anyPressed s = false) : confirmDrain s ts = confirmWait s ts := by
  cases ts <;> simp [confirmDrain, h]

/-- Helper: while every pin stays HIGH the resolution loop never
resolves. -/
theorem confirmWait_highTicks (s : BtnState) (times : List Nat)
    (h : settledHigh s = true) :
    confirmWait s (highTicks times) = none := by
  induction times generalizing s with
  | nil => rfl
  | cons n ns ih =>
    obtain ⟨hap, hset⟩ := highTick_keeps_settled s n h
    simp only [anyPressed, Bool.or_eq_false_iff] at hap
    obtain ⟨⟨⟨hu, hd⟩, hs⟩, hb⟩ := hap
    simp only [highTicks, List.map_cons, confirmWait, hu, hd, hs, hb,
      Bool.or_self, Bool.or_false, if_neg]
    exact ih _ hset

/-- Claim C7.  The confirmation gate: (a) its result never depends on
edge flags pending at entry (the drain step recomputes them before any
check); (b) with a pending edge flag and no further press the prompt
never resolves; (c) a debounced Select press after entry resolves to
`true`; (d) a debounced Back press after entry resolves to `false` (the
gate itself performs no guarded action; callers act only on `true`). -/
theorem c7_confirmation_gate (s sQ sA sB : BtnState) (ts : List Tick)
    (qtimes : List Nat) (a1 a2 : Tick) (as2 : List Tick) (b1 b2 : Tick)
    (bs2 : List Tick)
    (hQ : settledHigh sQ = true)
    (hA0 : anyPressed (updateButtonsStep sA a1) = false)
    (hA1 : (updateButtonsStep (updateButtonsStep sA a1) a2).select.pressed =
      true)
    (hB0 : anyPressed (updateButtonsStep sB b1) = false)
    (hB1 : (updateButtonsStep (updateButtonsStep sB b1) b2).select.pressed =
      false)
    (hB2 : (updateButtonsStep (updateButtonsStep sB b1) b2).back.pressed =
      true) :
    confirmAction s ts = confirmAction (clearEdges s) ts ∧
    confirmAction sQ (highTicks qtimes) = none ∧
    confirmAction sA (a1 :: a2 :: as2) = some true ∧
    confirmAction sB (b1 :: b2 :: bs2) = some false := by
  refine ⟨?_, ?_, ?_, ?_⟩
  · cases ts with
    | nil => rfl
    | cons t ts' =>
      simp only [confirmAction, updateButtonsStep_clearEdges]
  · cases qtimes with
    | nil => rfl
    | cons n ns =>
      obtain ⟨hap, hset⟩ := highTick_keeps_settled sQ n hQ
      simp only [highTicks, List.map_cons, confirmAction]
      rw [confirmDrain_of_no_edge _ _ hap]
      exact confirmWait_highTicks _ ns hset
  · simp only [confirmAction]
    rw [confirmDrain_of_no_edge _ _ hA0]
    simp [confirmWait, hA1]
  · simp only [confirmAction]
    rw [confirmDrain_of_no_edge _ _ hB0]
    simp [confirmWait, hB1, hB2]

/-- Witness for C7: a stale Select edge with no further press never
resolves; a fresh debounced Select press resolves to `true`; a fresh
debounced Back press resolves to `false`. -/
theorem c7_confirmation_witness :
    confirmAction staleEdgeState (highTicks [5, 10, 700]) = none ∧
    confirmAction selPendingState [selLowTick 10, selLowTick 60] =
      some true ∧
    confirmAction backPendingState [backLowTick 10, backLowTick 60] =
      some false := by
  have h := c7_confirmation_gate selPendingState staleEdgeState
    selPendingState backPendingState [] [5, 10, 700]
    (selLowTick 10) (selLowTick 60) [] (backLowTick 10) (backLowTick 60) []
    (by decide) (by decide) (by decide) (by decide) (by decide) (by decide)
  exact ⟨h.2.1, h.2.2.1, h.2.2.2⟩

/-- Claim C9.  In the v5.0 confirmation gate a debounced Up or Down
press (with no simultaneous Select edge) also resolves the prompt to
`false`, exactly like Back: every button other than Select cancels. -/
theorem c9_updown_cancels (s : BtnState) (t1 t2 : Tick) (ts : List Tick)
    (h0 : anyPressed (updateButtonsStep s t1) = false)
    (hsel : (updateButtonsStep (updateButtonsStep s t1) t2).select.pressed =
      false)
    (hud : (updateButtonsStep (updateButtonsStep s t1) t2).up.pressed = true ∨
      (updateButtonsStep (updateButtonsStep s t1) t2).down.pressed = true) :
    confirmAction s (t1 :: t2 :: ts) = some false := by
  simp only [confirmAction]
  rw [confirmDrain_of_no_edge _ _ h0]
  cases hud with
  | inl hup => simp [confirmWait, hsel, hup]
  | inr hdn => simp [confirmWait, hsel, hdn]

/-- Witness for C9: a debounced Up press cancels; a debounced Down press
cancels. -/
theorem c9_updown_witness :
    confirmAction upPendingState [upLowTick 10, upLowTick 60] = some false ∧
    confirmAction downPendingState [downLowTick 10, downLowTick 60] =
      some false :=
  ⟨c9_updown_cancels _ _ _ _ (by decide) (by decide) (Or.inl (by decide)),
   c9_updown_cancels _ _ _ _ (by decide) (by decide) (Or.inr (by decide))⟩

/-- Helper: a HIGH reading never emits a press edge (the edge fires only
when the newly accepted level is LOW). -/
theorem debounce_true_pressed (W : Nat) (b : Btn) (n : Nat) :
    (debounce W b true n).pressed = false := by
  unfold debounce
  dsimp only
  repeat' split
  all_goals rfl

/-- Helper: the edge count of a run splits over trace concatenation. -/
theorem debounceRun_append_snd (W : Nat) (b : Btn)
    (xs ys : List (Nat × Bool)) :
    (debounceRun W b (xs ++ ys)).2 =
      (debounceRun W b xs).2 +
      (debounceRun W (debounceRun W b xs).1 ys).2 := by
  induction xs generalizing b with
  | nil => simp [debounceRun]
  | cons x xs ih =>
    obtain ⟨n, r⟩ := x
    simp [debounceRun, ih, Nat.add_assoc]

/-- Helper: a button already debounced to the polled level, with no
pending edge, is left exactly unchanged by any number of polls. -/
theorem debounceRun_stable (W : Nat) (b : Btn) (r : Bool) (t0 len : Nat)
    (h1 : b.lastButtonState = r) (h2 : b.currentState = r)
    (h3 : b.pressed = false) :
    debounceRun W b (seg t0 len r) = (b, 0) := by
  induction len generalizing t0 with
  | zero => rfl
  | succ k ih =>
    have hstep : debounce W b r t0 = b := by
      obtain ⟨ldt, lbs, cs, p⟩ := b
      dsimp only at h1 h2 h3
      subst h1
      subst h2
      subst h3
      simp [debounce]
    simp [seg, debounceRun, hstep, h3, ih]

/-- Helper: polls at the already-debounced level emit no edge, whatever
the pending edge flag was. -/
theorem debounceRun_stable_count (W : Nat) (b : Btn) (r : Bool)
    (t0 len : Nat) (h1 : b.lastButtonState = r) (h2 : b.currentState = r) :
    (debounceRun W b (seg t0 len r)).2 = 0 := by
  induction len generalizing t0 b with
  | zero => rfl
  | succ k ih =>
    have hstep : debounce W b r t0 =
        { lastDebounceTime := b.lastDebounceTime, lastButtonState := r,
          currentState := r, pressed := false } := by
      obtain ⟨ldt, lbs, cs, p⟩ := b
      dsimp only at h1 h2
      subst h1
      subst h2
      simp [debounce]
    simp only [seg, debounceRun, hstep]
    simp only [Bool.false_eq_true, if_false]
    simpa using ih
      { lastDebounceTime := b.lastDebounceTime, lastButtonState := r,
        currentState := r, pressed := false } (t0 + 1) rfl rfl

/-- Helper: HIGH polls never add to the edge count, from any state. -/
theorem debounceRun_true_count (W : Nat) (b : Btn) (t0 len : Nat) :
    (debounceRun W b (seg t0 len true)).2 = 0 := by
  induction len generalizing t0 b with
  | zero => rfl
  | succ k ih => simp [seg, debounceRun, debounce_true_pressed, ih]

/-- Helper: the first LOW poll after a settled HIGH state restamps the
debounce timer and emits nothing. -/
theorem debounce_first_low (W : Nat) (b : Btn) (n : Nat)
    (h1 : b.lastButtonState = true) (h2 : b.currentState = true) :
    debounce W b false n =
      { lastDebounceTime := n, lastButtonState := false,
        currentState := true, pressed := false } := by
  simp [debounce, h1, h2]

/-- Helper: LOW polls within the debounce window leave the
mid-debounce state unchanged and emit nothing. -/
theorem debounceRun_low_wait (W a t0 len : Nat) (h : t0 + len ≤ a + W + 1) :
    debounceRun W
      ({ lastDebounceTime := a, lastButtonState := false,
         currentState := true, pressed := false } : Btn)
      (seg t0 len false) =
      ({ lastDebounceTime := a, lastButtonState := false,
         currentState := true, pressed := false }, 0) := by
  induction len generalizing t0 with
  | zero => rfl
  | succ k ih =>
    have hw : ¬ (W < t0 - a) := by omega
    have hstep : debounce W
        ({ lastDebounceTime := a, lastButtonState := false,
           currentState := true, pressed := false } : Btn) false t0 =
        { lastDebounceTime := a, lastButtonState := false,
          currentState := true, pressed := false } := by
      simp [debounce, hw]
    simp only [seg, debounceRun, hstep]
    rw [ih (t0 + 1) (by omega)]
    simp

/-- Helper: a LOW poll strictly more than `W` ms after the raw change
accepts the LOW level and emits the one-shot press edge. -/
theorem debounce_accept_low (W a n : Nat) (h : W < n - a) :
    debounce W
      ({ lastDebounceTime := a, lastButtonState := false,
         currentState := true, pressed := false } : Btn) false n =
      { lastDebounceTime := a, lastButtonState := false,
        currentState := false, pressed := true } := by
  simp [debounce, h]

/-- Helper: splitting a stretch of identical polls. -/
theorem seg_append (t0 x y : Nat) (lvl : Bool) :
    seg t0 (x + y) lvl = seg t0 x lvl ++ seg (t0 + x) y lvl := by
  induction x generalizing t0 with
  | zero => simp [seg]
  | succ k ih =>
    have hh : k + 1 + y = k + y + 1 := by omega
    rw [hh]
    show (t0, lvl) :: seg (t0 + 1) (k + y) lvl =
      ((t0, lvl) :: seg (t0 + 1) k lvl) ++ seg (t0 + (k + 1)) y lvl
    rw [ih]
    simp only [List.cons_append]
    have h2 : t0 + 1 + k = t0 + (k + 1) := by omega
    rw [h2]

/-- Claim C8 (amended).  With 1 ms polling of an active-LOW pin that
idles HIGH, goes LOW at time `a`, stays LOW for `d` polls and returns
HIGH: the run emits exactly one press edge when some poll still reads
LOW strictly more than `W = 50` ms after the raw transition (that is,
`d ≥ 52`), and no edge otherwise — in particular a pin held stable for
exactly `W`, or for `W + 1` ms, emits nothing, because the acceptance
test is the strict `millis() - lastDebounceTime > debounceDelay`.  The
edge is one-shot: continued LOW polls and the release add nothing. -/
theorem c8_amended_press_edges (a d m : Nat) :
    (debounceRun 50 initBtn (mkTrace a d m)).2 =
      if 52 ≤ d then 1 else 0 := by
  unfold mkTrace
  rw [debounceRun_append_snd,
    debounceRun_stable 50 initBtn true 0 a rfl rfl rfl]
  simp only [debounceRun_append_snd, debounceRun_true_count,
    Nat.zero_add, Nat.add_zero]
  cases d with
  | zero => simp [seg, debounceRun]
  | succ k =>
    show (debounceRun 50 initBtn ((a, false) :: seg (a + 1) k false)).2 = _
    simp only [debounceRun, debounce_first_low 50 initBtn a rfl rfl]
    simp only [Bool.false_eq_true, if_false, Nat.zero_add]
    by_cases hk : k ≤ 50
    · rw [debounceRun_low_wait 50 a (a + 1) k (by omega)]
      rw [if_neg (by omega)]
    · have hsplit : k = 50 + (k - 50) := by omega
      rw [hsplit, seg_append, debounceRun_append_snd,
        debounceRun_low_wait 50 a (a + 1) 50 (by omega)]
      simp only [Nat.zero_add]
      have hrest : a + 1 + 50 = a + 51 := by omega
      rw [hrest]
      have hlen : k - 50 = (k - 51) + 1 := by omega
      rw [hlen]
      have hseg : seg (a + 51) (k - 51 + 1) false =
          (a + 51, false) :: seg (a + 51 + 1) (k - 51) false := rfl
      rw [hseg]
      simp only [debounceRun, debounce_accept_low 50 a (a + 51) (by omega)]
      rw [debounceRun_stable_count 50
        { lastDebounceTime := a, lastButtonState := false,
          currentState := false, pressed := true } false (a + 51 + 1)
        (k - 51) rfl rfl]
      simp
      first
      | done
      | omega
      | split <;> omega

set_option maxRecDepth 20000 in
/-- Counterexample to C8 as stated: with 1 ms polling and `W = 50`, a
pin that idles HIGH, transitions to LOW at t = 100 and is read LOW at
the 51 consecutive polls t = 100..150 — i.e. held stable for at least
`W` milliseconds after the transition — emits no press edge at all,
where the claim requires exactly one. -/
theorem c8_counterexample :
    (debounceRun 50 initBtn (mkTrace 100 51 60)).2 = 0 := by decide

/-- Helper: the spec-side token predicate agrees with the rejection
test of the `loadKeysFromSD` token loop. -/
theorem tokByteOk_iff (t : List Char) :
    tokByteOk t = true ↔
      ¬((strtol16 t).2 ≠ [] ∨ (strtol16 t).1 < 0 ∨
        255 < (strtol16 t).1) := by
  simp [tokByteOk, List.isEmpty_iff, not_or, not_lt, Bool.and_eq_true,
    decide_eq_true_iff]
  tauto

/-- Helper: full characterization of the token loop of `loadKeysFromSD`:
starting at `byteIndex = j ≤ 6`, the loop ends with `byteIndex = 6` and
`lineOk` still set iff at least `6 - j` tokens remain and the next
`6 - j` of them all parse as valid bytes — tokens beyond those are never
examined — and in that case the bytes stored are those tokens' values. -/
theorem parseToksAux_spec (toks : List (List Char)) :
    ∀ (j : Nat) (acc : List Nat), j ≤ 6 →
    ((((parseToksAux toks j acc).1 = 6 ∧
       (parseToksAux toks j acc).2.1 = true) ↔
      (6 - j ≤ toks.length ∧ (toks.take (6 - j)).all tokByteOk = true)) ∧
     (((parseToksAux toks j acc).1 = 6 ∧
       (parseToksAux toks j acc).2.1 = true) →
      (parseToksAux toks j acc).2.2 =
        acc.reverse ++ (toks.take (6 - j)).map tokByteVal)) := by
  induction toks with
  | nil =>
    intro j acc hj
    constructor
    · simp only [parseToksAux, List.length_nil, List.take_nil,
        List.all_nil, and_true]
      omega
    · intro _
      simp [parseToksAux]
  | cons tok rest ih =>
    intro j acc hj
    by_cases h6 : 6 ≤ j
    · have hj6 : j = 6 := by omega
      subst hj6
      have hres : parseToksAux (tok :: rest) 6 acc = (6, true, acc.reverse) := by
        simp [parseToksAux]
      rw [hres]
      constructor
      · simp
      · intro _
        simp
    · have htake : (6 - j) = (6 - (j + 1)) + 1 := by omega
      by_cases hbad : (strtol16 tok).2 ≠ [] ∨ (strtol16 tok).1 < 0 ∨
          255 < (strtol16 tok).1
      · have hTok : tokByteOk tok = false := by
          cases hOk : tokByteOk tok
          · rfl
          · exact absurd hbad ((tokByteOk_iff tok).mp hOk)
        have hres : parseToksAux (tok :: rest) j acc = (j, false, acc.reverse) := by
          simp only [parseToksAux]
          rw [if_neg h6, if_pos hbad]
        rw [hres]
        constructor
        · rw [htake, List.take_succ_cons]
          simp [hTok]
        · intro hok
          exact absurd hok.2 (by simp)
      · have hTok : tokByteOk tok = true := (tokByteOk_iff tok).mpr hbad
        have hres : parseToksAux (tok :: rest) j acc =
            parseToksAux rest (j + 1) ((strtol16 tok).1.toNat :: acc) := by
          simp only [parseToksAux]
          rw [if_neg h6, if_neg hbad]
        obtain ⟨ih1, ih2⟩ := ih (j + 1) ((strtol16 tok).1.toNat :: acc)
          (by omega)
        rw [hres]
        constructor
        · rw [ih1, htake, List.take_succ_cons]
          simp only [List.all_cons, hTok, Bool.true_and, List.length_cons]
          constructor
          · rintro ⟨h1, h2⟩
            exact ⟨by omega, h2⟩
          · rintro ⟨h1, h2⟩
            exact ⟨by omega, h2⟩
        · intro hok
          rw [ih2 hok, htake, List.take_succ_cons]
          simp [tokByteVal, List.append_assoc]

/-- Claim C5 (amended).  A non-empty key-file line (at most 39
characters once trimmed, the size of the parse buffer) contributes one
key iff it has at least 6 space-separated tokens and its **first six**
tokens each parse as a valid byte (0-255) with no trailing garbage —
the stored key being those six bytes; tokens beyond the sixth are
ignored, so a line of 7 valid tokens yields one entry rather than being
rejected.  A line with fewer than 6 tokens, or an invalid token among
the first six, yields no entry and is counted malformed, and parsing
continues with the next line (while fewer than 50 keys are stored). -/
theorem c5_amended_line_characterization (line : List Char)
    (h : (trimC line).length ≤ 39) (l0 : List Char) (ls : List (List Char))
    (k : Nat) (acc : List AuthKey) (m : Nat) (hk : k < 50)
    (hml : parseKeyLine l0 = LineResult.malformed) :
    (parseKeyLine line = LineResult.empty ↔ trimC line = []) ∧
    (∀ bs, parseKeyLine line = LineResult.key bs ↔
      (trimC line ≠ [] ∧ 6 ≤ (tokenizeSp (trimC line)).length ∧
       ((tokenizeSp (trimC line)).take 6).all tokByteOk = true ∧
       bs = ((tokenizeSp (trimC line)).take 6).map tokByteVal)) ∧
    (parseKeyLine line = LineResult.malformed ↔
      (trimC line ≠ [] ∧
       ¬(6 ≤ (tokenizeSp (trimC line)).length ∧
         ((tokenizeSp (trimC line)).take 6).all tokByteOk = true))) ∧
    loadKeysAux (l0 :: ls) k acc m = loadKeysAux ls k acc (m + 1) := by
  have hcont : loadKeysAux (l0 :: ls) k acc m = loadKeysAux ls k acc (m + 1) := by
    simp only [loadKeysAux]
    rw [if_neg (by omega), hml]
  have htk : (trimC line).take 39 = trimC line := List.take_of_length_le h
  obtain ⟨hiff, hval⟩ := parseToksAux_spec (tokenizeSp (trimC line)) 0 []
    (by omega)
  simp only [Nat.sub_zero, List.reverse_nil, List.nil_append] at hiff hval
  by_cases hemp : trimC line = []
  · have hres : parseKeyLine line = LineResult.empty := by
      unfold parseKeyLine
      rw [if_pos (by simp [List.isEmpty_iff, hemp])]
    rw [hres]
    refine ⟨by simp [hemp], ?_, by simp [hemp], hcont⟩
    intro bs
    simp [hemp]
  · have hres : parseKeyLine line =
        (if (parseToksAux (tokenizeSp (trimC line)) 0 []).1 = 6 ∧
            (parseToksAux (tokenizeSp (trimC line)) 0 []).2.1 = true then
          LineResult.key (parseToksAux (tokenizeSp (trimC line)) 0 []).2.2
        else LineResult.malformed) := by
      unfold parseKeyLine
      rw [if_neg (by simp [List.isEmpty_iff, hemp])]
      rw [htk]
    by_cases hgood : (parseToksAux (tokenizeSp (trimC line)) 0 []).1 = 6 ∧
        (parseToksAux (tokenizeSp (trimC line)) 0 []).2.1 = true
    · obtain ⟨hlen6, hall6⟩ := hiff.mp hgood
      have hbs := hval hgood
      rw [hres, if_pos hgood]
      refine ⟨by simp [hemp], ?_, ?_, hcont⟩
      · intro bs
        constructor
        · intro hkey
          have : bs = (parseToksAux (tokenizeSp (trimC line)) 0 []).2.2 := by
            cases hkey
            rfl
          exact ⟨hemp, hlen6, hall6, by rw [this, hbs]⟩
        · rintro ⟨-, -, -, hbseq⟩
          rw [hbseq, ← hbs]
      · constructor
        · intro hcontr
          cases hcontr
        · rintro ⟨-, hnot⟩
          exact absurd ⟨hlen6, hall6⟩ hnot
    · rw [hres, if_neg hgood]
      refine ⟨by simp [hemp], ?_, ?_, hcont⟩
      · intro bs
        constructor
        · intro hcontr
          cases hcontr
        · rintro ⟨-, hl, ha, -⟩
          exact absurd (hiff.mpr ⟨hl, ha⟩) hgood
      · constructor
        · intro _
          refine ⟨hemp, ?_⟩
          intro hga
          exact hgood (hiff.mpr hga)
        · intro _
          rfl

set_option maxRecDepth 4000 in
/-- Counterexample to C5 as stated: the 7-token line
`FF FF FF FF FF FF FF` is accepted — the loop stops after six tokens
with `lineOk` still true and the seventh token is silently ignored — so
it yields one dictionary entry and no malformed diagnostic, where the
claim requires zero entries and a malformed count. -/
theorem c5_counterexample :
    parseKeyLine sevenTokLine = LineResult.key (List.replicate 6 255) ∧
    loadKeysList [sevenTokLine] = ([List.replicate 6 255], 0) := by decide

set_option maxRecDepth 4000 in
/-- Witness for C5 (amended) at the 7-token line and a malformed line. -/
theorem c5_amended_witness :
    parseKeyLine sevenTokLine =
      LineResult.key
        (((tokenizeSp (trimC sevenTokLine)).take 6).map tokByteVal) ∧
    loadKeysAux (badKeyLine :: []) 0 [] 0 = loadKeysAux [] 0 [] 1 := by
  have h := c5_amended_line_characterization sevenTokLine (by decide)
    badKeyLine [] 0 [] 0 (by decide) (by decide)
  exact ⟨(h.2.1 _).mpr ⟨by decide, by decide, by decide, rfl⟩, h.2.2.2⟩

end Firmware
